import Mathlib

deriving instance DecidableEq for Except

/-!
Verification of the commit-message generation core of the `auto-git-message`
VS Code extension (`src/extension.ts`), as a shallow embedding in Lean 4.

Each definition below is translated from the TypeScript source.  JavaScript
string/array primitives (`split`, `trim`, `includes`, `toLowerCase`, `push`,
`unshift`, `splice`, stable `sort`) are modelled by explicit Lean functions
over `List Char` / `List` with the same semantics.
-/

namespace AutoGitMessage

/-! ## JavaScript string primitives -/

/-- JS `String.prototype.split(sep)` for a single-character separator, on
character lists.  Keeps empty segments, so `"" ↦ [[]]` and
`"a\n\nb" ↦ [[a],[],[b]]`, exactly like JS `split`. -/
def splitOnChar (sep : Char) : List Char → List (List Char)
  | [] => [[]]
  | c :: cs =>
    match splitOnChar sep cs with
    | [] => [[]]
    | h :: t => if c == sep then [] :: h :: t else (c :: h) :: t

/-- JS `split(sep)` on strings (single-character separator). -/
def jsSplit (sep : Char) (s : String) : List String :=
  (splitOnChar sep s.data).map String.mk

/-- JS `String.prototype.trim()`: drop leading and trailing whitespace
(space, tab, CR, LF — the characters occurring in this program's data). -/
def jsTrim (s : String) : String :=
  ⟨((s.data.dropWhile Char.isWhitespace).reverse.dropWhile Char.isWhitespace).reverse⟩

/-- JS `String.prototype.toLowerCase()` (ASCII, as used by the source). -/
def jsToLower (s : String) : String :=
  ⟨s.data.map Char.toLower⟩

/-- Decides whether `pat` occurs as a contiguous sublist of `l`. -/
def infixCheck (pat : List Char) : List Char → Bool
  | [] => pat.isEmpty
  | c :: cs => pat.isPrefixOf (c :: cs) || infixCheck pat cs

/-- JS `String.prototype.includes(pat)`. -/
def strContains (s pat : String) : Bool :=
  infixCheck pat.data s.data

/-! ## Error taxonomy (spec §7) mapped to the source's distinct throw sites -/

/-- Errors of the diff extractor `getStagedChanges`. -/
inductive ExtractError where
  /-- The `error.code === 128` branch: `'Not a Git repository or Git is not installed'`. -/
  | notARepository : ExtractError
  /-- generic branch: `'Failed to get staged changes: …'`. -/
  | failure (msg : String) : ExtractError
deriving DecidableEq, Repr

/-- Error kinds of the generation pipeline, one per distinct outcome in
`generateCommitMessage` / `generateCommitMessagesWithAI`. -/
inductive GenError where
  /-- API key missing for a credential-requiring provider (the
  `'API key not found'` pre-flight branch). -/
  | missingCredential : GenError
  /-- The `'No workspace folder found'` error. -/
  | noWorkspaceFolder : GenError
  /-- an extraction failure propagated from `getStagedChanges`. -/
  | extraction (e : ExtractError) : GenError
  /-- The `'No staged changes found'` outcome (non-error "nothing to do" signal). -/
  | noStagedChanges : GenError
  /-- catch branch on `'401'`: `'Invalid API key …'`. -/
  | unauthorized : GenError
  /-- catch branch on `'quota'`: `'API quota exceeded …'`. -/
  | quotaExceeded : GenError
  /-- generic `'AI API error: …'`. -/
  | providerFailure (msg : String) : GenError
  /-- The `'No response from AI provider'` error (`if (!response)`). -/
  | noResponse : GenError
  /-- The `'No valid commit messages generated'` error. -/
  | emptyGeneration : GenError
deriving DecidableEq, Repr

/-! ## Response parser (`generateCommitMessagesWithAI`, lines 1257–1272) -/

/-- The non-empty trimmed lines of a raw backend response:
`response.split('\n').map(msg => msg.trim()).filter(msg => msg.length > 0)`. -/
def nonEmptyTrimmedLines (response : String) : List String :=
  ((jsSplit '\n' response).map jsTrim).filter (fun m => decide (0 < m.length))

/-- The response-parsing tail of `generateCommitMessagesWithAI`.  A JS string
`response` is falsy exactly when it is `""`, so `if (!response) throw 'No
response from AI provider'` is the first branch; then the split/trim/filter
pipeline with `.slice(0, 3)`, throwing `'No valid commit messages generated'`
when nothing remains. -/
def parseResponse (response : String) : Except GenError (List String) :=
  if response = "" then Except.error GenError.noResponse
  else
    let messages := (nonEmptyTrimmedLines response).take 3
    if messages.length = 0 then Except.error GenError.emptyGeneration
    else Except.ok messages

/-! ## History / favorites store (lines 162–238) -/

/-- Source structure `CommitMessageItem` (line 19) with fields message,
timestamp, provider, model.
`timestamp` is the `Date.now()` value, modelled as a natural number. -/
structure CommitMessageItem where
  message : String
  timestamp : Nat
  provider : String
  model : String
deriving DecidableEq, Repr

/-- Source constant `MAX_HISTORY_ITEMS = 20`. -/
def MAX_HISTORY_ITEMS : Nat := 20

/-- Insert one item into a list already sorted by descending timestamp,
before the first strictly-smaller timestamp.  Auxiliary step of
`sortByTimestampDesc`. -/
def insertByTsDesc (x : CommitMessageItem) : List CommitMessageItem → List CommitMessageItem
  | [] => [x]
  | y :: ys => if y.timestamp ≤ x.timestamp then x :: y :: ys else y :: insertByTsDesc x ys

/-- The stable descending sort `history.sort((a, b) => b.timestamp - a.timestamp)`
performed by `getCommitHistory` / `getFavoriteCommits` (JS `Array.prototype.sort`
is stable; this insertion sort computes the same stable result for this
comparator). -/
def sortByTsDesc : List CommitMessageItem → List CommitMessageItem
  | [] => []
  | x :: xs => insertByTsDesc x (sortByTsDesc xs)

/-- The stored list is sorted by timestamp, most recent first. -/
def sortedByTsDesc (l : List CommitMessageItem) : Prop :=
  List.Pairwise (fun a b => b.timestamp ≤ a.timestamp) l

/-- Functions `getCommitHistory` / `getFavoriteCommits`: read the stored list sorted by
timestamp descending. -/
def readSortedByTimestamp (stored : List CommitMessageItem) : List CommitMessageItem :=
  sortByTsDesc stored

/-- Function `addToCommitHistory` (lines 173–196): read the (sorted) history; if some
entry has an identical message, return without updating the stored state;
otherwise `unshift` the new entry, `splice(MAX_HISTORY_ITEMS)` when over the
cap, and store the result. -/
def addToCommitHistory (stored : List CommitMessageItem)
    (message provider model : String) (now : Nat) : List CommitMessageItem :=
  let history := readSortedByTimestamp stored
  if history.any (fun item => item.message == message) then stored
  else
    let updated := { message := message, timestamp := now,
                     provider := provider, model := model : CommitMessageItem } :: history
    if MAX_HISTORY_ITEMS < updated.length then updated.take MAX_HISTORY_ITEMS else updated

/-- Function `addToFavorites` (lines 209–228): read the (sorted) favorites; if some
entry has an identical message, report "already exists" (`false`) leaving the
stored state untouched; otherwise `unshift` and store (`true` = added). -/
def addToFavorites (stored : List CommitMessageItem)
    (message provider model : String) (now : Nat) : List CommitMessageItem × Bool :=
  let favorites := readSortedByTimestamp stored
  if favorites.any (fun item => item.message == message) then (stored, false)
  else ({ message := message, timestamp := now,
          provider := provider, model := model : CommitMessageItem } :: favorites, true)

/-- Function `removeFromFavorites` (lines 233–238): read the (sorted) favorites, keep
every entry whose message differs (`item.message !== message`), store the
filtered list. -/
def removeFromFavorites (stored : List CommitMessageItem) (message : String) :
    List CommitMessageItem :=
  (readSortedByTimestamp stored).filter (fun item => item.message != message)

/-! ## Context classifier (`analyzeChangeContext`, lines 402–517) -/

/-- Source structure `ChangeContext` (line 26). -/
structure ChangeContext where
  fileTypes : List String
  frameworks : List String
  changeTypes : List String
  hasTests : Bool
  hasConfig : Bool
  hasDocs : Bool
  language : String
  scope : String
deriving DecidableEq, Repr

/-- The initial context (lines 407–416), also returned whenever the
path-listing step fails. -/
def emptyContext : ChangeContext :=
  { fileTypes := [], frameworks := [], changeTypes := [],
    hasTests := false, hasConfig := false, hasDocs := false,
    language := "unknown", scope := "" }

/-- Line 420: `file.split('.').pop()?.toLowerCase() || ''`. -/
def extOf (file : String) : String :=
  jsToLower ((jsSplit '.' file).getLastD "")

/-- Line 421: `file.toLowerCase()`. -/
def fileNameOf (file : String) : String :=
  jsToLower file

/-- Line 422: `file.split('/')[0]?.toLowerCase() || ''`. -/
def dirOf (file : String) : String :=
  jsToLower ((jsSplit '/' file).headD "")

/-- Lines 425–427: push the extension onto `fileTypes` unless already present
or empty. -/
def stepFileTypes (ctx : ChangeContext) (extension : String) : ChangeContext :=
  if !(ctx.fileTypes.contains extension) && !(extension == "") then
    { ctx with fileTypes := ctx.fileTypes ++ [extension] }
  else ctx

/-- The extension → language table of the `if/else if` chain, lines 430–444.
`none` when the extension matches no branch. -/
def langOf (extension : String) : Option String :=
  if ["ts", "tsx", "js", "jsx"].contains extension then some "javascript/typescript"
  else if extension == "py" then some "python"
  else if extension == "java" then some "java"
  else if extension == "cs" then some "csharp"
  else if extension == "go" then some "go"
  else if extension == "rs" then some "rust"
  else if extension == "php" then some "php"
  else none

/-- Lines 430–444: a mapped extension overwrites `language`; an unmapped one
leaves it untouched. -/
def stepLanguage (ctx : ChangeContext) (extension : String) : ChangeContext :=
  match langOf extension with
  | some lang => { ctx with language := lang }
  | none => ctx

/-- Manifest detection, lines 447–458: three independent `if`s pushing an
ecosystem tag and setting `hasConfig`. -/
def stepManifests (ctx : ChangeContext) (filename : String) : ChangeContext :=
  let ctx :=
    if strContains filename "package.json" || strContains filename "package-lock.json" then
      { ctx with frameworks := ctx.frameworks ++ ["node.js"], hasConfig := true }
    else ctx
  let ctx :=
    if strContains filename "requirements.txt" || strContains filename "pyproject.toml" then
      { ctx with frameworks := ctx.frameworks ++ ["python"], hasConfig := true }
    else ctx
  if strContains filename "cargo.toml" || strContains filename "cargo.lock" then
    { ctx with frameworks := ctx.frameworks ++ ["rust"], hasConfig := true }
  else ctx

/-- Lines 459–461: `if (directory === 'src' || directory === 'lib')
{ context.scope = 'core'; }` — an unconditional assignment. -/
def stepScopeCore (ctx : ChangeContext) (directory : String) : ChangeContext :=
  if directory == "src" || directory == "lib" then { ctx with scope := "core" } else ctx

/-- Lines 462–465: test marker sets `hasTests` and `scope = scope || 'test'`. -/
def stepScopeTest (ctx : ChangeContext) (filename directory : String) : ChangeContext :=
  if strContains filename "test" || strContains filename "spec" || strContains directory "test" then
    { ctx with hasTests := true, scope := if ctx.scope == "" then "test" else ctx.scope }
  else ctx

/-- Lines 466–469: config marker sets `hasConfig` and `scope = scope || 'config'`. -/
def stepScopeConfig (ctx : ChangeContext) (filename extension : String) : ChangeContext :=
  if strContains filename "config" || strContains filename ".env" ||
      extension == "json" || extension == "yaml" || extension == "yml" then
    { ctx with hasConfig := true, scope := if ctx.scope == "" then "config" else ctx.scope }
  else ctx

/-- Lines 470–473: docs marker sets `hasDocs` and `scope = scope || 'docs'`. -/
def stepScopeDocs (ctx : ChangeContext) (filename extension : String) : ChangeContext :=
  if strContains filename "readme" || strContains filename "doc" || extension == "md" then
    { ctx with hasDocs := true, scope := if ctx.scope == "" then "docs" else ctx.scope }
  else ctx

/-- Lines 476–478: React/Vue/Angular detection pushes `'frontend'` (no dedup). -/
def stepFrontend (ctx : ChangeContext) (filename extension : String) : ChangeContext :=
  if strContains filename "component" || extension == "vue" ||
      extension == "tsx" || extension == "jsx" then
    { ctx with frameworks := ctx.frameworks ++ ["frontend"] }
  else ctx

/-- Lines 481–483: API/backend detection pushes `'backend'` (no dedup). -/
def stepBackend (ctx : ChangeContext) (filename : String) : ChangeContext :=
  if strContains filename "api" || strContains filename "controller" ||
      strContains filename "service" || strContains filename "model" then
    { ctx with frameworks := ctx.frameworks ++ ["backend"] }
  else ctx

/-- One iteration of the `for (const file of changedFiles)` loop
(lines 419–484), in source order. -/
def analyzeFileStep (ctx : ChangeContext) (file : String) : ChangeContext :=
  let extension := extOf file
  let filename := fileNameOf file
  let directory := dirOf file
  let ctx := stepFileTypes ctx extension
  let ctx := stepLanguage ctx extension
  let ctx := stepManifests ctx filename
  let ctx := stepScopeCore ctx directory
  let ctx := stepScopeTest ctx filename directory
  let ctx := stepScopeConfig ctx filename extension
  let ctx := stepScopeDocs ctx filename extension
  let ctx := stepFrontend ctx filename extension
  stepBackend ctx filename

/-- Lines 487–501: assemble `changeTypes` from the flags after the loop. -/
def buildChangeTypes (ctx : ChangeContext) : ChangeContext :=
  let ctx := if ctx.hasTests then { ctx with changeTypes := ctx.changeTypes ++ ["test"] } else ctx
  let ctx := if ctx.hasConfig then { ctx with changeTypes := ctx.changeTypes ++ ["config"] } else ctx
  let ctx := if ctx.hasDocs then { ctx with changeTypes := ctx.changeTypes ++ ["docs"] } else ctx
  let ctx := if ctx.frameworks.contains "frontend" then
    { ctx with changeTypes := ctx.changeTypes ++ ["ui"] } else ctx
  if ctx.frameworks.contains "backend" then
    { ctx with changeTypes := ctx.changeTypes ++ ["api"] } else ctx

/-- Function `analyzeChangeContext` on the list of changed file paths (the source
obtains it from `git diff --staged --name-only`, filtering out empty lines;
the path list itself is the classifier's input here). -/
def analyzeChangeContext (changedFiles : List String) : ChangeContext :=
  buildChangeTypes (changedFiles.foldl analyzeFileStep emptyContext)

/-! ## Diff extractor (`getStagedChanges`, lines 1144–1162) -/

/-- The `maxBuffer: 1024 * 1024` passed to `execAsync` (line 1148). -/
def maxDiffBuffer : Nat := 1024 * 1024

/-- Function `getStagedChanges`, modelled over the underlying `git diff --staged`
invocation's observable behaviour: its exit code and its stdout text.  Node's
`child_process.exec` rejects with `'stdout maxBuffer length exceeded'`
(terminating the child) as soon as stdout exceeds `maxBuffer`; that rejection
has no numeric `code === 128`, so the source's catch wraps it in the generic
`'Failed to get staged changes: …'` error.  Exit code 128 maps to the distinct
`'Not a Git repository'` error; other non-zero codes to the generic one. -/
def getStagedChanges (exitCode : Nat) (stdout : String) : Except ExtractError String :=
  if maxDiffBuffer < stdout.length then
    Except.error (ExtractError.failure "stdout maxBuffer length exceeded")
  else if exitCode = 128 then Except.error ExtractError.notARepository
  else if exitCode ≠ 0 then Except.error (ExtractError.failure "git diff failed")
  else Except.ok stdout

/-! ## Prompt builder (`generateContextAwarePrompt`, lines 522–577) -/

/-- Function `generateContextAwarePrompt`: sequential string concatenation; each
context clause is appended only when the corresponding field is non-empty.
(The source's template literal writes `\\n`, i.e. a literal backslash-n.) -/
def generateContextAwarePrompt (stagedChanges : String) (ctx : ChangeContext)
    (professionalism : String) : String :=
  let prompt := "Generate a commit message for the following Git changes. "
  let prompt :=
    if 0 < ctx.changeTypes.length then
      prompt ++ "This appears to be a " ++ String.intercalate ", " ctx.changeTypes ++ " change. "
    else prompt
  let prompt :=
    if ctx.language != "unknown" then
      prompt ++ "The changes are primarily in " ++ ctx.language ++ ". "
    else prompt
  let prompt :=
    if 0 < ctx.frameworks.length then
      prompt ++ "Frameworks involved: " ++ String.intercalate ", " ctx.frameworks ++ ". "
    else prompt
  let prompt :=
    if ctx.scope != "" then prompt ++ "Focus area: " ++ ctx.scope ++ ". " else prompt
  let prompt :=
    if professionalism == "simple" then
      prompt ++ "Generate a simple, concise commit message (no prefixes, just action and description). "
    else if professionalism == "standard" then
      let prompt := prompt ++ "Use conventional commit format (type: description). "
      let prompt := if ctx.hasTests then prompt ++ "Use 'test:' for test changes. " else prompt
      let prompt := if ctx.hasDocs then prompt ++ "Use 'docs:' for documentation changes. " else prompt
      if ctx.hasConfig then prompt ++ "Use 'chore:' for configuration changes. " else prompt
    else if professionalism == "professional" then
      let prompt := prompt ++ "Use conventional commit format with scope (type(scope): description). "
      if ctx.scope != "" then prompt ++ "Suggested scope: " ++ ctx.scope ++ ". " else prompt
    else if professionalism == "enterprise" then
      prompt ++ "Use full conventional commit format with body and footer if needed. Include breaking change indicators if applicable. "
    else prompt
  prompt ++ "Here are the changes:\\n\\n" ++ stagedChanges ++ "\\n\\nGenerate 3 different commit message options."

/-! ## Provider dispatch and top-level generation (lines 944–1002, 1168–1283) -/

/-- The fixed provider enumeration of the `commitAi.provider` setting. -/
inductive Provider where
  | openai | anthropic | google | ollama | groq
deriving DecidableEq, Repr

/-- The configuration string of each provider. -/
def providerName : Provider → String
  | Provider.openai => "openai"
  | Provider.anthropic => "anthropic"
  | Provider.google => "google"
  | Provider.ollama => "ollama"
  | Provider.groq => "groq"

/-- Function `getApiKeySecret` (lines 132–136): `'commitAi.apiKey.' + provider`. -/
def apiKeySecret (p : Provider) : String :=
  "commitAi.apiKey." ++ providerName p

/-- Observable pipeline events: one `providerCall` per provider-adapter
invocation (each adapter performs exactly one network request). -/
inductive GenEvent where
  | providerCall (prompt : String) : GenEvent
deriving DecidableEq, Repr

/-- The error-classification catch of `generateCommitMessagesWithAI`
(lines 1274–1282): substring `'401'` → invalid key, `'quota'` → quota
exceeded, otherwise a generic provider error. -/
def classifyProviderError (msg : String) : GenError :=
  if strContains msg "401" then GenError.unauthorized
  else if strContains msg "quota" then GenError.quotaExceeded
  else GenError.providerFailure msg

/-- The generation pipeline after the credential pre-flight check: workspace
check, staged-diff extraction, empty-diff check, context analysis, prompt
construction, a single provider-adapter call (recorded as a `GenEvent`), and
response parsing.  The adapter receives the API key and the prompt, and
returns the raw response (`none` models a JS `null` response). -/
def runGenerationPipeline (apiKey : String) (hasWorkspace : Bool)
    (gitExitCode : Nat) (gitStdout : String) (changedFiles : List String)
    (professionalism : String)
    (adapter : String → String → Except String (Option String)) :
    List GenEvent × Except GenError (List String) :=
  if !hasWorkspace then ([], Except.error GenError.noWorkspaceFolder)
  else
    match getStagedChanges gitExitCode gitStdout with
    | Except.error e => ([], Except.error (GenError.extraction e))
    | Except.ok staged =>
      if (jsTrim staged).length = 0 then ([], Except.error GenError.noStagedChanges)
      else
        let ctx := analyzeChangeContext changedFiles
        let prompt := generateContextAwarePrompt staged ctx professionalism
        match adapter apiKey prompt with
        | Except.error e => ([GenEvent.providerCall prompt], Except.error (classifyProviderError e))
        | Except.ok none => ([GenEvent.providerCall prompt], Except.error GenError.noResponse)
        | Except.ok (some response) => ([GenEvent.providerCall prompt], parseResponse response)

/-- Function `generateCommitMessage` (lines 944–1002): for every provider except the
local-inference one (`provider !== 'ollama'`), the stored credential is looked
up first; if absent, generation stops before anything else happens (the user
is warned and offered the set-key remediation).  The returned event list
records every provider-adapter invocation. -/
def generateCommitMessageRun (provider : Provider) (secrets : String → Option String)
    (hasWorkspace : Bool) (gitExitCode : Nat) (gitStdout : String)
    (changedFiles : List String) (professionalism : String)
    (adapter : String → String → Except String (Option String)) :
    List GenEvent × Except GenError (List String) :=
  if provider = Provider.ollama then
    runGenerationPipeline "" hasWorkspace gitExitCode gitStdout changedFiles professionalism adapter
  else
    match secrets (apiKeySecret provider) with
    | none => ([], Except.error GenError.missingCredential)
    | some apiKey =>
      runGenerationPipeline apiKey hasWorkspace gitExitCode gitStdout changedFiles
        professionalism adapter

/-! ## Store lemmas -/

lemma insertByTsDesc_perm (x : CommitMessageItem) (l : List CommitMessageItem) :
    (insertByTsDesc x l).Perm (x :: l) := by
  induction l with
  | nil => simp [insertByTsDesc]
  | cons y ys ih =>
    simp only [insertByTsDesc]
    split
    · exact List.Perm.refl _
    · exact (ih.cons y).trans (List.Perm.swap x y ys)

lemma sortByTsDesc_perm (l : List CommitMessageItem) : (sortByTsDesc l).Perm l := by
  induction l with
  | nil => exact List.Perm.refl _
  | cons x xs ih => exact (insertByTsDesc_perm x (sortByTsDesc xs)).trans (ih.cons x)

lemma sortByTsDesc_eq_self {l : List CommitMessageItem} (h : sortedByTsDesc l) :
    sortByTsDesc l = l := by
  induction l with
  | nil => rfl
  | cons x xs ih =>
    have hx : ∀ b ∈ xs, b.timestamp ≤ x.timestamp := (List.pairwise_cons.mp h).1
    have hxs : sortedByTsDesc xs := (List.pairwise_cons.mp h).2
    simp only [sortByTsDesc, ih hxs]
    cases xs with
    | nil => rfl
    | cons y ys => simp [insertByTsDesc, hx y (by simp)]

lemma any_sortByTsDesc (l : List CommitMessageItem) (p : CommitMessageItem → Bool) :
    (sortByTsDesc l).any p = l.any p := by
  cases h : l.any p
  · rw [List.any_eq_false] at h ⊢
    intro a ha
    exact h a ((sortByTsDesc_perm l).mem_iff.mp ha)
  · rw [List.any_eq_true] at h ⊢
    obtain ⟨a, ha, hp⟩ := h
    exact ⟨a, (sortByTsDesc_perm l).mem_iff.mpr ha, hp⟩

lemma countP_sortByTsDesc (l : List CommitMessageItem) (p : CommitMessageItem → Bool) :
    (sortByTsDesc l).countP p = l.countP p :=
  (sortByTsDesc_perm l).countP_eq p

/-! ## Concrete history scenario: 21 distinct messages -/

/-- 21 pairwise-distinct commit messages. -/
def historyMessages : List String :=
  ["m01", "m02", "m03", "m04", "m05", "m06", "m07", "m08", "m09", "m10",
   "m11", "m12", "m13", "m14", "m15", "m16", "m17", "m18", "m19", "m20", "m21"]

/-- The stored history after appending the 21 messages in order, with
strictly increasing timestamps 1, 2, …, 21. -/
def historyAfterAll : List CommitMessageItem :=
  (historyMessages.enum).foldl
    (fun st p => addToCommitHistory st p.2 "prov" "model" (p.1 + 1)) []

/-- C2: `addToCommitHistory` inserts at the front when no stored entry has an
identical message and truncates to the most recent `MAX_HISTORY_ITEMS = 20`;
a duplicate message is a strict no-op on the stored state; appending 21
distinct messages leaves exactly the most recent 20, most-recent first. -/
theorem addToCommitHistory_spec :
    (∀ stored message provider model now, sortedByTsDesc stored →
        stored.any (fun item => item.message == message) = false →
        addToCommitHistory stored message provider model now =
          ({ message := message, timestamp := now, provider := provider, model := model :
              CommitMessageItem } :: stored).take MAX_HISTORY_ITEMS)
    ∧ (∀ stored message provider model now,
        stored.any (fun item => item.message == message) = true →
        addToCommitHistory stored message provider model now = stored)
    ∧ historyAfterAll.map (fun item => item.message) = (historyMessages.drop 1).reverse
    ∧ historyAfterAll.length = 20
    ∧ historyAfterAll.map (fun item => item.timestamp) =
        [21, 20, 19, 18, 17, 16, 15, 14, 13, 12, 11, 10, 9, 8, 7, 6, 5, 4, 3, 2] := by
  refine ⟨?_, ?_, by decide, by decide, by decide⟩
  · intro stored message provider model now hsort hany
    simp only [addToCommitHistory, readSortedByTimestamp, sortByTsDesc_eq_self hsort, hany,
      Bool.false_eq_true, if_false]
    split
    · rfl
    · rw [List.take_of_length_le (by omega)]
  · intro stored message provider model now hany
    simp only [addToCommitHistory, readSortedByTimestamp, any_sortByTsDesc, hany, if_true]

/-- Witness for C2 at a concrete input. -/
theorem addToCommitHistory_spec_witness :
    addToCommitHistory [] "feat: x" "openai" "gpt-4o-mini" 7 =
      ({ message := "feat: x", timestamp := 7, provider := "openai", model := "gpt-4o-mini" :
          CommitMessageItem } :: []).take MAX_HISTORY_ITEMS :=
  addToCommitHistory_spec.1 [] "feat: x" "openai" "gpt-4o-mini" 7 List.Pairwise.nil (by decide)

/-- C9: `addToFavorites` inserts at the front when the message is absent;
a duplicate message returns the "already exists" signal (`false`) without
modifying the stored list; adding the same message twice yields exactly one
stored favorite and a non-error "already exists" signal on the second call. -/
theorem addToFavorites_spec :
    (∀ stored message provider model now, sortedByTsDesc stored →
        stored.any (fun item => item.message == message) = false →
        addToFavorites stored message provider model now =
          ({ message := message, timestamp := now, provider := provider, model := model :
              CommitMessageItem } :: stored, true))
    ∧ (∀ stored message provider model now,
        stored.any (fun item => item.message == message) = true →
        addToFavorites stored message provider model now = (stored, false))
    ∧ (∀ stored message provider model now provider' model' now',
        stored.any (fun item => item.message == message) = false →
        addToFavorites (addToFavorites stored message provider model now).1
            message provider' model' now' =
          ((addToFavorites stored message provider model now).1, false)
        ∧ ((addToFavorites stored message provider model now).1).countP
            (fun item => item.message == message) = 1) := by
  refine ⟨?_, ?_, ?_⟩
  · intro stored message provider model now hsort hany
    simp only [addToFavorites, readSortedByTimestamp, sortByTsDesc_eq_self hsort, hany,
      Bool.false_eq_true, if_false]
  · intro stored message provider model now hany
    simp only [addToFavorites, readSortedByTimestamp, any_sortByTsDesc, hany, if_true]
  · intro stored message provider model now provider' model' now' hany
    have h1 : addToFavorites stored message provider model now =
        ({ message := message, timestamp := now, provider := provider, model := model :
            CommitMessageItem } :: sortByTsDesc stored, true) := by
      simp only [addToFavorites, readSortedByTimestamp, any_sortByTsDesc, hany,
        Bool.false_eq_true, if_false]
    rw [h1]
    constructor
    · simp [addToFavorites, readSortedByTimestamp, any_sortByTsDesc]
    · rw [List.countP_cons]
      simp only [countP_sortByTsDesc]
      have h0 : stored.countP (fun item => item.message == message) = 0 :=
        List.countP_eq_zero.mpr (List.any_eq_false.mp hany)
      simp [h0]

/-- Witness for C9 at a concrete input. -/
theorem addToFavorites_spec_witness :
    addToFavorites
        (addToFavorites [] "fix: y" "openai" "gpt-4o-mini" 3).1 "fix: y" "groq" "llama" 9 =
      ((addToFavorites [] "fix: y" "openai" "gpt-4o-mini" 3).1, false)
    ∧ ((addToFavorites [] "fix: y" "openai" "gpt-4o-mini" 3).1).countP
        (fun item => item.message == "fix: y") = 1 :=
  addToFavorites_spec.2.2 [] "fix: y" "openai" "gpt-4o-mini" 3 "groq" "llama" 9 (by decide)

/-- C10 counterexample: removing an absent message from a stored list that is
not in timestamp-descending order rewrites the stored list (it is re-sorted),
so the state is not left exactly unchanged. -/
theorem removeFromFavorites_counterexample :
    removeFromFavorites
        [{ message := "a", timestamp := 1, provider := "p", model := "m" },
         { message := "b", timestamp := 2, provider := "p", model := "m" }] "x" =
      [{ message := "b", timestamp := 2, provider := "p", model := "m" },
       { message := "a", timestamp := 1, provider := "p", model := "m" }]
    ∧ ([{ message := "b", timestamp := 2, provider := "p", model := "m" },
        { message := "a", timestamp := 1, provider := "p", model := "m" }] :
          List CommitMessageItem) ≠
      [{ message := "a", timestamp := 1, provider := "p", model := "m" },
       { message := "b", timestamp := 2, provider := "p", model := "m" }] := by
  exact ⟨by decide, by decide⟩

/-- C10 (amended): removing an absent message never errors and stores a
permutation of the list (its timestamp-descending reordering) with nothing
removed; when the stored list is already sorted by timestamp descending — as
every store mutation produces — it is exactly a no-op on the state. -/
theorem removeFromFavorites_amended :
    (∀ stored message, sortedByTsDesc stored →
        stored.all (fun item => item.message != message) = true →
        removeFromFavorites stored message = stored)
    ∧ (∀ stored message,
        stored.all (fun item => item.message != message) = true →
        (removeFromFavorites stored message).Perm stored) := by
  constructor
  · intro stored message hsort hall
    simp only [removeFromFavorites, readSortedByTimestamp, sortByTsDesc_eq_self hsort]
    exact List.filter_eq_self.mpr (List.all_eq_true.mp hall)
  · intro stored message hall
    have hfilter : (sortByTsDesc stored).filter (fun item => item.message != message) =
        sortByTsDesc stored := by
      refine List.filter_eq_self.mpr ?_
      intro a ha
      exact List.all_eq_true.mp hall a ((sortByTsDesc_perm stored).mem_iff.mp ha)
    simp only [removeFromFavorites, readSortedByTimestamp, hfilter]
    exact sortByTsDesc_perm stored

/-- Witness for the amended C10 at a concrete input. -/
theorem removeFromFavorites_amended_witness :
    removeFromFavorites [{ message := "a", timestamp := 1, provider := "p", model := "m" }] "x" =
      [{ message := "a", timestamp := 1, provider := "p", model := "m" }] :=
  removeFromFavorites_amended.1
    [{ message := "a", timestamp := 1, provider := "p", model := "m" }] "x"
    (List.pairwise_singleton _ _) (by decide)

/-! ## Parser, extractor and dispatcher theorems -/

/-- C1: whenever the response parser succeeds, its result is exactly the
first at-most-3 non-empty trimmed lines of the raw text, in original order
and without deduplication (it is literally `take 3` of the undeduplicated
line list); on `"a\n\nb\n c \n d"` it returns exactly `["a","b","c"]`. -/
theorem parseResponse_spec :
    (∀ s l, parseResponse s = Except.ok l →
        l = (nonEmptyTrimmedLines s).take 3 ∧ l.length ≤ 3)
    ∧ parseResponse "a\n\nb\n c \n d" = Except.ok ["a", "b", "c"] := by
  constructor
  · intro s l h
    simp only [parseResponse] at h
    split at h
    · exact absurd h (by simp)
    · split at h
      · exact absurd h (by simp)
      · rw [Except.ok.injEq] at h
        refine ⟨h.symm, ?_⟩
        rw [← h, List.length_take]
        exact Nat.min_le_left _ _
  · decide

/-- Witness for C1 at the spec's concrete input. -/
theorem parseResponse_spec_witness :
    (["a", "b", "c"] : List String) = (nonEmptyTrimmedLines "a\n\nb\n c \n d").take 3
    ∧ (["a", "b", "c"] : List String).length ≤ 3 :=
  parseResponse_spec.1 "a\n\nb\n c \n d" ["a", "b", "c"] (by decide)

/-- C8 counterexample: on the empty string the parser fails with the distinct
`noResponse` error (`'No response from AI provider'`, the `if (!response)`
branch), not with `emptyGeneration`. -/
theorem parseResponse_empty_counterexample :
    parseResponse "" = Except.error GenError.noResponse
    ∧ GenError.noResponse ≠ GenError.emptyGeneration :=
  ⟨by decide, by decide⟩

/-- C8 (amended): a raw text that is non-empty but leaves zero non-empty
lines after splitting and trimming (e.g. `"   "`) fails with
`emptyGeneration`; the empty string instead fails earlier with the distinct
`noResponse` error. -/
theorem parseResponse_emptyGeneration_amended :
    (∀ s, s ≠ "" → nonEmptyTrimmedLines s = [] →
        parseResponse s = Except.error GenError.emptyGeneration)
    ∧ parseResponse "   " = Except.error GenError.emptyGeneration
    ∧ parseResponse "" = Except.error GenError.noResponse := by
  refine ⟨?_, by decide, by decide⟩
  intro s hs hlines
  simp [parseResponse, hs, hlines]

/-- Witness for the amended C8 at a concrete input. -/
theorem parseResponse_emptyGeneration_amended_witness :
    parseResponse "   " = Except.error GenError.emptyGeneration :=
  parseResponse_emptyGeneration_amended.1 "   " (by decide) (by decide)

/-- A staged diff one byte over the 1 MiB `maxBuffer` cap. -/
def oversizedDiff : String := String.mk (List.replicate (1024 * 1024 + 1) 'a')

/-- C4 counterexample: a staged diff longer than the 1 MiB cap does not make
the extractor return successfully with capped text — the underlying
`exec`'s `maxBuffer` rejection makes the extraction fail. -/
theorem getStagedChanges_oversized_counterexample :
    getStagedChanges 0 oversizedDiff =
      Except.error (ExtractError.failure "stdout maxBuffer length exceeded") := by
  have hlen : oversizedDiff.length = 1024 * 1024 + 1 := by
    rw [oversizedDiff, String.length_mk, List.length_replicate]
  simp [getStagedChanges, hlen, maxDiffBuffer]

/-- C4 (amended): the extractor never returns text longer than the 1 MiB cap,
but for a diff over the cap it fails (with the generic wrapped
`maxBuffer`-exceeded error) instead of returning truncated text; successful
returns pass the diff through unmodified. -/
theorem getStagedChanges_cap_amended :
    (∀ exitCode stdout out, getStagedChanges exitCode stdout = Except.ok out →
        out.length ≤ maxDiffBuffer ∧ out = stdout)
    ∧ (∀ exitCode stdout, maxDiffBuffer < stdout.length →
        getStagedChanges exitCode stdout =
          Except.error (ExtractError.failure "stdout maxBuffer length exceeded")) := by
  constructor
  · intro exitCode stdout out h
    simp only [getStagedChanges] at h
    split at h
    · exact absurd h (by simp)
    · split at h
      · exact absurd h (by simp)
      · split at h
        · exact absurd h (by simp)
        · rw [Except.ok.injEq] at h
          subst h
          exact ⟨by omega, rfl⟩
  · intro exitCode stdout h
    simp [getStagedChanges, h]

/-- Witness for the amended C4 at a concrete input. -/
theorem getStagedChanges_cap_amended_witness :
    ("diff --git a b" : String).length ≤ maxDiffBuffer ∧ "diff --git a b" = "diff --git a b" :=
  getStagedChanges_cap_amended.1 0 "diff --git a b" "diff --git a b" (by decide)

/-- C3: for every provider that requires a credential (every provider except
the local-inference `ollama`), a missing stored credential makes generation
fail with the distinct `missingCredential` error with an empty event trace —
i.e. before any provider-adapter call, for every adapter. -/
theorem generateCommitMessage_missingCredential
    (provider : Provider) (secrets : String → Option String) (hasWorkspace : Bool)
    (gitExitCode : Nat) (gitStdout : String) (changedFiles : List String)
    (professionalism : String)
    (adapter : String → String → Except String (Option String))
    (hp : provider ≠ Provider.ollama)
    (hk : secrets (apiKeySecret provider) = none) :
    generateCommitMessageRun provider secrets hasWorkspace gitExitCode gitStdout
        changedFiles professionalism adapter =
      ([], Except.error GenError.missingCredential) := by
  simp only [generateCommitMessageRun, if_neg hp, hk]

/-- Witness for C3 at a concrete input (OpenAI provider, empty secret store,
an adapter that would answer if it were ever called). -/
theorem generateCommitMessage_missingCredential_witness :
    generateCommitMessageRun Provider.openai (fun _ => none) true 0 "some diff" []
        "standard" (fun _ _ => Except.ok (some "one\ntwo\nthree")) =
      ([], Except.error GenError.missingCredential) :=
  generateCommitMessage_missingCredential Provider.openai (fun _ => none) true 0 "some diff" []
    "standard" (fun _ _ => Except.ok (some "one\ntwo\nthree")) (by decide) rfl

/-! ## Classifier field lemmas

Each loop sub-step touches only the fields its source lines assign; these
projection lemmas record the untouched fields. -/

@[simp] lemma stepFileTypes_scope (ctx : ChangeContext) (e : String) :
    (stepFileTypes ctx e).scope = ctx.scope := by
  simp only [stepFileTypes]; split <;> rfl

@[simp] lemma stepFileTypes_language (ctx : ChangeContext) (e : String) :
    (stepFileTypes ctx e).language = ctx.language := by
  simp only [stepFileTypes]; split <;> rfl

@[simp] lemma stepFileTypes_changeTypes (ctx : ChangeContext) (e : String) :
    (stepFileTypes ctx e).changeTypes = ctx.changeTypes := by
  simp only [stepFileTypes]; split <;> rfl

@[simp] lemma stepLanguage_scope (ctx : ChangeContext) (e : String) :
    (stepLanguage ctx e).scope = ctx.scope := by
  cases h : langOf e <;> simp [stepLanguage, h]

@[simp] lemma stepLanguage_fileTypes (ctx : ChangeContext) (e : String) :
    (stepLanguage ctx e).fileTypes = ctx.fileTypes := by
  cases h : langOf e <;> simp [stepLanguage, h]

@[simp] lemma stepLanguage_changeTypes (ctx : ChangeContext) (e : String) :
    (stepLanguage ctx e).changeTypes = ctx.changeTypes := by
  cases h : langOf e <;> simp [stepLanguage, h]

@[simp] lemma stepManifests_scope (ctx : ChangeContext) (f : String) :
    (stepManifests ctx f).scope = ctx.scope := by
  simp only [stepManifests]; split <;> split <;> split <;> rfl

@[simp] lemma stepManifests_language (ctx : ChangeContext) (f : String) :
    (stepManifests ctx f).language = ctx.language := by
  simp only [stepManifests]; split <;> split <;> split <;> rfl

@[simp] lemma stepManifests_fileTypes (ctx : ChangeContext) (f : String) :
    (stepManifests ctx f).fileTypes = ctx.fileTypes := by
  simp only [stepManifests]; split <;> split <;> split <;> rfl

@[simp] lemma stepManifests_changeTypes (ctx : ChangeContext) (f : String) :
    (stepManifests ctx f).changeTypes = ctx.changeTypes := by
  simp only [stepManifests]; split <;> split <;> split <;> rfl

@[simp] lemma stepScopeCore_language (ctx : ChangeContext) (d : String) :
    (stepScopeCore ctx d).language = ctx.language := by
  simp only [stepScopeCore]; split <;> rfl

@[simp] lemma stepScopeCore_fileTypes (ctx : ChangeContext) (d : String) :
    (stepScopeCore ctx d).fileTypes = ctx.fileTypes := by
  simp only [stepScopeCore]; split <;> rfl

@[simp] lemma stepScopeCore_changeTypes (ctx : ChangeContext) (d : String) :
    (stepScopeCore ctx d).changeTypes = ctx.changeTypes := by
  simp only [stepScopeCore]; split <;> rfl

@[simp] lemma stepScopeTest_language (ctx : ChangeContext) (f d : String) :
    (stepScopeTest ctx f d).language = ctx.language := by
  simp only [stepScopeTest]; split <;> rfl

@[simp] lemma stepScopeTest_fileTypes (ctx : ChangeContext) (f d : String) :
    (stepScopeTest ctx f d).fileTypes = ctx.fileTypes := by
  simp only [stepScopeTest]; split <;> rfl

@[simp] lemma stepScopeTest_changeTypes (ctx : ChangeContext) (f d : String) :
    (stepScopeTest ctx f d).changeTypes = ctx.changeTypes := by
  simp only [stepScopeTest]; split <;> rfl

@[simp] lemma stepScopeConfig_language (ctx : ChangeContext) (f e : String) :
    (stepScopeConfig ctx f e).language = ctx.language := by
  simp only [stepScopeConfig]; split <;> rfl

@[simp] lemma stepScopeConfig_fileTypes (ctx : ChangeContext) (f e : String) :
    (stepScopeConfig ctx f e).fileTypes = ctx.fileTypes := by
  simp only [stepScopeConfig]; split <;> rfl

@[simp] lemma stepScopeConfig_changeTypes (ctx : ChangeContext) (f e : String) :
    (stepScopeConfig ctx f e).changeTypes = ctx.changeTypes := by
  simp only [stepScopeConfig]; split <;> rfl

@[simp] lemma stepScopeDocs_language (ctx : ChangeContext) (f e : String) :
    (stepScopeDocs ctx f e).language = ctx.language := by
  simp only [stepScopeDocs]; split <;> rfl

@[simp] lemma stepScopeDocs_fileTypes (ctx : ChangeContext) (f e : String) :
    (stepScopeDocs ctx f e).fileTypes = ctx.fileTypes := by
  simp only [stepScopeDocs]; split <;> rfl

@[simp] lemma stepScopeDocs_changeTypes (ctx : ChangeContext) (f e : String) :
    (stepScopeDocs ctx f e).changeTypes = ctx.changeTypes := by
  simp only [stepScopeDocs]; split <;> rfl

@[simp] lemma stepFrontend_scope (ctx : ChangeContext) (f e : String) :
    (stepFrontend ctx f e).scope = ctx.scope := by
  simp only [stepFrontend]; split <;> rfl

@[simp] lemma stepFrontend_language (ctx : ChangeContext) (f e : String) :
    (stepFrontend ctx f e).language = ctx.language := by
  simp only [stepFrontend]; split <;> rfl

@[simp] lemma stepFrontend_fileTypes (ctx : ChangeContext) (f e : String) :
    (stepFrontend ctx f e).fileTypes = ctx.fileTypes := by
  simp only [stepFrontend]; split <;> rfl

@[simp] lemma stepFrontend_changeTypes (ctx : ChangeContext) (f e : String) :
    (stepFrontend ctx f e).changeTypes = ctx.changeTypes := by
  simp only [stepFrontend]; split <;> rfl

@[simp] lemma stepBackend_scope (ctx : ChangeContext) (f : String) :
    (stepBackend ctx f).scope = ctx.scope := by
  simp only [stepBackend]; split <;> rfl

@[simp] lemma stepBackend_language (ctx : ChangeContext) (f : String) :
    (stepBackend ctx f).language = ctx.language := by
  simp only [stepBackend]; split <;> rfl

@[simp] lemma stepBackend_fileTypes (ctx : ChangeContext) (f : String) :
    (stepBackend ctx f).fileTypes = ctx.fileTypes := by
  simp only [stepBackend]; split <;> rfl

@[simp] lemma stepBackend_changeTypes (ctx : ChangeContext) (f : String) :
    (stepBackend ctx f).changeTypes = ctx.changeTypes := by
  simp only [stepBackend]; split <;> rfl

@[simp] lemma buildChangeTypes_scope (ctx : ChangeContext) :
    (buildChangeTypes ctx).scope = ctx.scope := by
  simp only [buildChangeTypes]; split <;> split <;> split <;> split <;> split <;> rfl

@[simp] lemma buildChangeTypes_language (ctx : ChangeContext) :
    (buildChangeTypes ctx).language = ctx.language := by
  simp only [buildChangeTypes]; split <;> split <;> split <;> split <;> split <;> rfl

@[simp] lemma buildChangeTypes_fileTypes (ctx : ChangeContext) :
    (buildChangeTypes ctx).fileTypes = ctx.fileTypes := by
  simp only [buildChangeTypes]; split <;> split <;> split <;> split <;> split <;> rfl

/-! ## Scope behaviour of the loop body -/

/-- The condition of the `scope = 'core'` rule (line 459): the file's
top-level directory is `src` or `lib`. -/
def isCoreFile (file : String) : Bool :=
  dirOf file == "src" || dirOf file == "lib"

lemma stepScopeCore_scope_pos (ctx : ChangeContext) {d : String}
    (h : (d == "src" || d == "lib") = true) : (stepScopeCore ctx d).scope = "core" := by
  simp [stepScopeCore, h]

lemma stepScopeCore_scope_neg (ctx : ChangeContext) {d : String}
    (h : (d == "src" || d == "lib") = false) : (stepScopeCore ctx d).scope = ctx.scope := by
  simp [stepScopeCore, h]

lemma stepScopeTest_scope_of_ne (ctx : ChangeContext) (f d : String)
    (h : ctx.scope ≠ "") : (stepScopeTest ctx f d).scope = ctx.scope := by
  simp only [stepScopeTest]
  split
  · simp [h]
  · rfl

lemma stepScopeConfig_scope_of_ne (ctx : ChangeContext) (f e : String)
    (h : ctx.scope ≠ "") : (stepScopeConfig ctx f e).scope = ctx.scope := by
  simp only [stepScopeConfig]
  split
  · simp [h]
  · rfl

lemma stepScopeDocs_scope_of_ne (ctx : ChangeContext) (f e : String)
    (h : ctx.scope ≠ "") : (stepScopeDocs ctx f e).scope = ctx.scope := by
  simp only [stepScopeDocs]
  split
  · simp [h]
  · rfl

/-- Once the scope is non-empty, the test/config/docs/frontend/backend tail
of the loop body leaves it unchanged. -/
lemma tailSteps_scope (ctx : ChangeContext) (f d e : String) (h : ctx.scope ≠ "") :
    (stepBackend (stepFrontend (stepScopeDocs (stepScopeConfig
        (stepScopeTest ctx f d) f e) f e) f e) f).scope = ctx.scope := by
  have h1 : (stepScopeTest ctx f d).scope = ctx.scope := stepScopeTest_scope_of_ne ctx f d h
  have h2 : (stepScopeConfig (stepScopeTest ctx f d) f e).scope = ctx.scope := by
    rw [stepScopeConfig_scope_of_ne _ _ _ (by rw [h1]; exact h), h1]
  have h3 : (stepScopeDocs (stepScopeConfig (stepScopeTest ctx f d) f e) f e).scope =
      ctx.scope := by
    rw [stepScopeDocs_scope_of_ne _ _ _ (by rw [h2]; exact h), h2]
  rw [stepBackend_scope, stepFrontend_scope, h3]

/-- A file whose top-level directory is `src` or `lib` forces the scope to
`core`, whatever it was before. -/
lemma analyzeFileStep_scope_of_core (ctx : ChangeContext) (file : String)
    (h : isCoreFile file = true) : (analyzeFileStep ctx file).scope = "core" := by
  simp only [analyzeFileStep]
  have hX : (stepScopeCore (stepManifests (stepLanguage (stepFileTypes ctx (extOf file))
      (extOf file)) (fileNameOf file)) (dirOf file)).scope = "core" :=
    stepScopeCore_scope_pos _ h
  rw [tailSteps_scope _ _ _ _ (by rw [hX]; decide), hX]

/-- A non-`src`/`lib` file never changes an already-set (non-empty) scope. -/
lemma analyzeFileStep_scope_of_set (ctx : ChangeContext) (file : String)
    (hcore : isCoreFile file = false) (h : ctx.scope ≠ "") :
    (analyzeFileStep ctx file).scope = ctx.scope := by
  simp only [analyzeFileStep]
  have hX : (stepScopeCore (stepManifests (stepLanguage (stepFileTypes ctx (extOf file))
      (extOf file)) (fileNameOf file)) (dirOf file)).scope = ctx.scope := by
    rw [stepScopeCore_scope_neg _ hcore]
    simp
  rw [tailSteps_scope _ _ _ _ (by rw [hX]; exact h), hX]

/-! ## Language behaviour of the loop body -/

lemma analyzeFileStep_language_some (ctx : ChangeContext) (file : String) {L : String}
    (h : langOf (extOf file) = some L) : (analyzeFileStep ctx file).language = L := by
  simp only [analyzeFileStep]
  simp [stepLanguage, h]

lemma analyzeFileStep_language_none (ctx : ChangeContext) (file : String)
    (h : langOf (extOf file) = none) : (analyzeFileStep ctx file).language = ctx.language := by
  simp only [analyzeFileStep]
  simp [stepLanguage, h]

lemma foldl_language_none (files : List String) :
    ∀ ctx : ChangeContext, (∀ f ∈ files, langOf (extOf f) = none) →
      (files.foldl analyzeFileStep ctx).language = ctx.language := by
  induction files with
  | nil => intro ctx _; rfl
  | cons f fs ih =>
    intro ctx h
    rw [List.foldl_cons, ih _ (fun g hg => h g (by simp [hg])),
      analyzeFileStep_language_none ctx f (h f (by simp))]

/-! ## fileTypes and changeTypes behaviour -/

lemma analyzeFileStep_fileTypes (ctx : ChangeContext) (file : String) :
    (analyzeFileStep ctx file).fileTypes = (stepFileTypes ctx (extOf file)).fileTypes := by
  simp only [analyzeFileStep]
  simp

lemma stepFileTypes_nodup (ctx : ChangeContext) (e : String)
    (h : ctx.fileTypes.Nodup) : ((stepFileTypes ctx e).fileTypes).Nodup := by
  simp only [stepFileTypes]
  split
  · rename_i hcond
    have hnotmem : e ∉ ctx.fileTypes := by
      have hc := (Bool.and_eq_true _ _).mp hcond
      simpa using hc.1
    exact ((List.perm_append_singleton e ctx.fileTypes).nodup_iff).mpr
      (List.nodup_cons.mpr ⟨hnotmem, h⟩)
  · exact h

lemma foldl_fileTypes_nodup (files : List String) :
    ∀ ctx : ChangeContext, ctx.fileTypes.Nodup →
      ((files.foldl analyzeFileStep ctx).fileTypes).Nodup := by
  induction files with
  | nil => intro ctx h; exact h
  | cons f fs ih =>
    intro ctx h
    rw [List.foldl_cons]
    exact ih _ (by rw [analyzeFileStep_fileTypes]; exact stepFileTypes_nodup ctx (extOf f) h)

lemma analyzeFileStep_changeTypes (ctx : ChangeContext) (file : String) :
    (analyzeFileStep ctx file).changeTypes = ctx.changeTypes := by
  simp only [analyzeFileStep]
  simp

lemma foldl_changeTypes (files : List String) :
    ∀ ctx : ChangeContext, (files.foldl analyzeFileStep ctx).changeTypes = ctx.changeTypes := by
  induction files with
  | nil => intro ctx; rfl
  | cons f fs ih =>
    intro ctx
    rw [List.foldl_cons, ih, analyzeFileStep_changeTypes]

lemma buildChangeTypes_nodup (ctx : ChangeContext) (h : ctx.changeTypes = []) :
    ((buildChangeTypes ctx).changeTypes).Nodup := by
  simp only [buildChangeTypes]
  split <;> split <;> split <;> split <;> split <;> simp [h]

/-! ## Classifier theorems -/

/-- C5 counterexample: the first file sets the scope to `"docs"`, yet a later
`src/` file overwrites it with `"core"` — the core rule assigns even when a
scope was already set, contradicting "sets scope 'core' only if no scope was
already set". -/
theorem analyzeChangeContext_scope_counterexample :
    (analyzeChangeContext ["README.md"]).scope = "docs"
    ∧ (analyzeChangeContext ["README.md", "src/a.ts"]).scope = "core"
    ∧ ("docs" : String) ≠ "" :=
  ⟨by decide, by decide, by decide⟩

/-- C5 (amended): the `src`/`lib` rule is unconditional — any file whose
top-level directory is `src` or `lib` forces the scope to `"core"`, even when
a scope was already set (so the last such file wins); the test/config/docs
rules set the scope only when it is still unset, so a non-`src`/`lib` file
never changes a non-empty scope; on `["src/a.ts","tests/b.spec.ts","README.md"]`
the resulting scope is `"core"`. -/
theorem analyzeChangeContext_scope_amended :
    (analyzeChangeContext ["src/a.ts", "tests/b.spec.ts", "README.md"]).scope = "core"
    ∧ (∀ files file, isCoreFile file = true →
        (analyzeChangeContext (files ++ [file])).scope = "core")
    ∧ (∀ files file, isCoreFile file = false →
        (analyzeChangeContext files).scope ≠ "" →
        (analyzeChangeContext (files ++ [file])).scope = (analyzeChangeContext files).scope) := by
  refine ⟨by decide, ?_, ?_⟩
  · intro files file h
    simp only [analyzeChangeContext, List.foldl_append, List.foldl_cons, List.foldl_nil]
    rw [buildChangeTypes_scope]
    exact analyzeFileStep_scope_of_core _ file h
  · intro files file hcore hne
    simp only [analyzeChangeContext, List.foldl_append, List.foldl_cons, List.foldl_nil] at hne ⊢
    rw [buildChangeTypes_scope] at hne ⊢
    rw [buildChangeTypes_scope]
    exact analyzeFileStep_scope_of_set _ file hcore hne

/-- Witness for the amended C5 at concrete inputs. -/
theorem analyzeChangeContext_scope_amended_witness :
    (analyzeChangeContext ([] ++ ["src/x.ts"])).scope = "core"
    ∧ (analyzeChangeContext (["docs.md"] ++ ["notes.txt"])).scope =
        (analyzeChangeContext ["docs.md"]).scope :=
  ⟨analyzeChangeContext_scope_amended.2.1 [] "src/x.ts" (by decide),
   analyzeChangeContext_scope_amended.2.2 ["docs.md"] "notes.txt" (by decide) (by decide)⟩

/-- C6 counterexample: a first file sets the language to `"python"`, and a
later file with a mapped extension overwrites it — contradicting "once set it
is not overwritten by any subsequent file". -/
theorem analyzeChangeContext_language_counterexample :
    (analyzeChangeContext ["a.py"]).language = "python"
    ∧ (analyzeChangeContext ["a.py", "b.ts"]).language = "javascript/typescript"
    ∧ ("python" : String) ≠ "javascript/typescript" :=
  ⟨by decide, by decide, by decide⟩

/-- C6 (amended): the detected language is determined by the *last* file
whose extension is in the fixed lookup table (every mapped extension
overwrites); files with unmapped extensions leave the language unchanged, so
it stays `"unknown"` when no file has a mapped extension. -/
theorem analyzeChangeContext_language_amended :
    (∀ files file L, langOf (extOf file) = some L →
        (analyzeChangeContext (files ++ [file])).language = L)
    ∧ (∀ files file, langOf (extOf file) = none →
        (analyzeChangeContext (files ++ [file])).language = (analyzeChangeContext files).language)
    ∧ (∀ files, (∀ f ∈ files, langOf (extOf f) = none) →
        (analyzeChangeContext files).language = "unknown") := by
  refine ⟨?_, ?_, ?_⟩
  · intro files file L h
    simp only [analyzeChangeContext, List.foldl_append, List.foldl_cons, List.foldl_nil]
    rw [buildChangeTypes_language]
    exact analyzeFileStep_language_some _ file h
  · intro files file h
    simp only [analyzeChangeContext, List.foldl_append, List.foldl_cons, List.foldl_nil]
    rw [buildChangeTypes_language, buildChangeTypes_language]
    exact analyzeFileStep_language_none _ file h
  · intro files h
    simp only [analyzeChangeContext]
    rw [buildChangeTypes_language, foldl_language_none files emptyContext h]
    rfl

/-- Witness for the amended C6 at concrete inputs. -/
theorem analyzeChangeContext_language_amended_witness :
    (analyzeChangeContext ([] ++ ["a.py"])).language = "python"
    ∧ (analyzeChangeContext (["a.py"] ++ ["b.txt"])).language =
        (analyzeChangeContext ["a.py"]).language
    ∧ (analyzeChangeContext ["x.txt"]).language = "unknown" :=
  ⟨analyzeChangeContext_language_amended.1 [] "a.py" "python" (by decide),
   analyzeChangeContext_language_amended.2.1 ["a.py"] "b.txt" (by decide),
   analyzeChangeContext_language_amended.2.2 ["x.txt"] (by decide)⟩

/-- C7 counterexample: two `.tsx` files produce the repeated framework tag
`["frontend", "frontend"]` — the frameworks list is not deduplicated. -/
theorem analyzeChangeContext_frameworks_counterexample :
    (analyzeChangeContext ["a.tsx", "b.tsx"]).frameworks = ["frontend", "frontend"]
    ∧ ¬ ((analyzeChangeContext ["a.tsx", "b.tsx"]).frameworks).Nodup :=
  ⟨by decide, by decide⟩

/-- C7 (amended): the file-type set and the change-category tag set are
duplicate-free for every input, but the framework/ecosystem tag list admits
duplicates (it is pushed to without a membership guard). -/
theorem analyzeChangeContext_dedup_amended :
    ∀ files, ((analyzeChangeContext files).fileTypes).Nodup
      ∧ ((analyzeChangeContext files).changeTypes).Nodup := by
  intro files
  constructor
  · simp only [analyzeChangeContext]
    rw [buildChangeTypes_fileTypes]
    exact foldl_fileTypes_nodup files emptyContext List.nodup_nil
  · exact buildChangeTypes_nodup _ (foldl_changeTypes files emptyContext)

end AutoGitMessage
